import Mathlib

/-!
# BatchBytes — verification of the bulk-messaging core

Shallow embedding of the batch-bytes repository (email / SMS / WhatsApp
bulk dispatch gated by a per-client token quota) and proofs about the
claims on recipient extraction, quota enforcement, dispatch isolation,
audit logging and the monthly report loop.

Sources embedded: `src/email.js`, `src/sms.js`, `src/whatsapp.js`,
`src/auth0.js`, `src/utils/validate.js`, `src/utils/excel.js`,
`src/utils/convert.js`, `src/utils/logs.js`, `src/report.js`.

JavaScript strings are Lean `String`s, JS numbers that hold token
amounts are `Int`, `undefined` cells are `Option`, and a function that
can `throw` returns `Except String`.  Remote calls (Auth0, SES, SNS,
S3) are replaced by explicit oracles recorded in a "world" structure;
asynchronous fan-out (`Promise.all`) is modelled by evaluating the
per-recipient transport oracle over the recipient list in submission
order, which preserves the set of dispatched sends and the settled
outcome of each (only completion *order* is abstracted away).
-/

namespace BatchBytes

/-- Decidable equality for `Except` results, used to evaluate the
embedded fallible functions on concrete inputs. -/
instance {ε α : Type} [DecidableEq ε] [DecidableEq α] : DecidableEq (Except ε α) := fun x y =>
  match x, y with
  | Except.error a, Except.error b =>
    if h : a = b then Decidable.isTrue (by rw [h]) else Decidable.isFalse (by simp [h])
  | Except.ok a, Except.ok b =>
    if h : a = b then Decidable.isTrue (by rw [h]) else Decidable.isFalse (by simp [h])
  | Except.error _, Except.ok _ => Decidable.isFalse (by simp)
  | Except.ok _, Except.error _ => Decidable.isFalse (by simp)

/-- A recipient row of the email sheet: address plus ordered placeholder
parameters (`{ email, parameters }` in `excel.js`). -/
structure EmailRec where
  email : String
  parameters : List String
deriving DecidableEq, Repr

/-- A recipient row of the SMS / WhatsApp sheets
(`{ mobile, parameters }` in `excel.js`). -/
structure MobileRec where
  mobile : String
  parameters : List String
deriving DecidableEq, Repr

/-- The `batchType` string argument (`"email" | "sms" | "whatsapp"`). -/
inductive BatchType where
  | email
  | sms
  | whatsapp
deriving DecidableEq, Repr

/-- The per-channel token prices from the environment
(`NEXT_PUBLIC_TOKENS_PER_EMAIL` / `_SMS` / `_WHATSAPP`). -/
structure Env where
  tokensPerEmail : Int
  tokensPerSms : Int
  tokensPerWhatsapp : Int
deriving DecidableEq, Repr

/-- The Auth0 account metadata the quota ledger reads
(`user_metadata.is_active`, `email_verified`, `user_metadata.tokens`). -/
structure User where
  is_active : Bool
  email_verified : Bool
  tokens : Int
deriving DecidableEq, Repr

/-! ## `utils/convert.js` — `replacePlaceholders` -/

/-- Core of `replacePlaceholders`: scan the body left to right for the
non-overlapping occurrences of the two-character pattern, replacing the
i-th occurrence by `parameters[i]`; when the parameter list is
exhausted (`parameters[index] === undefined`) the occurrence is kept
literally.  Mirrors `messageBody.replace(/{}/g, cb)` in `convert.js`. -/
def replaceAux : List Char → List String → List Char
  | [], _ => []
  | [c], _ => [c]
  | c :: d :: rest, params =>
    if c = '{' ∧ d = '}' then
      match params with
      | p :: ps => p.data ++ replaceAux rest ps
      | [] => '{' :: '}' :: replaceAux rest []
    else c :: replaceAux (d :: rest) params

/-- `replacePlaceholders(messageBody, parameters)` from `convert.js`. -/
def replacePlaceholders (messageBody : String) (parameters : List String) : String :=
  String.mk (replaceAux messageBody.data parameters)

/-! ## `utils/validate.js` — format checks -/

/-- The email regex `^[^\s@]+@[^\s@]+\.[^\s@]+$` as a full-match
predicate: the string splits as `a ++ "@" ++ b ++ "." ++ c` with `a`,
`b`, `c` nonempty and free of whitespace and `@` (so exactly one `@`,
and some `.` after it with material on both sides). -/
def emailCls (c : Char) : Bool :=
  !c.isWhitespace && c ≠ '@'

/-- Decides whether the tail after the `@` matches `[^\s@]+\.[^\s@]+`:
some split at a `.` leaves both sides nonempty and in the class. -/
def emailTailOk (l : List Char) : Bool :=
  (List.range l.length).any fun j =>
    l.get? j = some '.' && decide (1 ≤ j) && decide (j + 1 < l.length) &&
      (l.take j).all emailCls && (l.drop (j + 1)).all emailCls

/-- `isValidEmail(emailAddress)` from `validate.js`. -/
def isValidEmail (emailAddress : String) : Bool :=
  let cs := emailAddress.data
  (List.range cs.length).any fun i =>
    cs.get? i = some '@' && decide (1 ≤ i) &&
      (cs.take i).all emailCls && emailTailOk (cs.drop (i + 1))

/-- JS `\s` on the characters this code feeds it (ASCII sheet data). -/
def wsJs (c : Char) : Bool :=
  c.isWhitespace

/-- `String.prototype.trim`. -/
def jsTrim (l : List Char) : List Char :=
  ((l.dropWhile wsJs).reverse.dropWhile wsJs).reverse

/-- Parses the `(\s?\d)*`-shaped tail of the mobile regex: the parse
into optional-whitespace/digit groups is forced, so return the group
count when the whole list is consumed, `none` otherwise. -/
def tailGroups : List Char → Option Nat
  | [] => some 0
  | c :: rest =>
    if c.isDigit then (tailGroups rest).map (· + 1)
    else if wsJs c then
      match rest with
      | [] => none
      | d :: rest2 =>
        if d.isDigit then (tailGroups rest2).map (· + 1) else none
    else none

/-- One backtracking choice of the mobile regex: `\d{k}` for the
country code followed by `(\s?\d){4,14}` consuming the rest. -/
def tryCountryCode (rest : List Char) (k : Nat) : Bool :=
  decide ((rest.take k).length = k) && (rest.take k).all Char.isDigit &&
    (match tailGroups (rest.drop k) with
     | some m => decide (4 ≤ m) && decide (m ≤ 14)
     | none => false)

/-- `isValidMobile(mobileNumber)` from `validate.js`: the regex
`^\+\d{1,3}(\s?\d){4,14}$` tested against the trimmed input, with the
existential over the 1–3 digit country code made explicit. -/
def isValidMobile (mobileNumber : String) : Bool :=
  match jsTrim mobileNumber.data with
  | [] => false
  | c :: rest =>
    decide (c = '+') &&
      (tryCountryCode rest 1 || tryCountryCode rest 2 || tryCountryCode rest 3)

/-! ## `utils/validate.js` — quota ledger -/

/-- `calculateBatchCost(batchSize, batchType)`: batch size times the
channel's configured per-item token price. -/
def calculateBatchCost (batchSize : Nat) (batchType : BatchType) (env : Env) : Int :=
  let costPerItem : Int :=
    match batchType with
    | BatchType.email => env.tokensPerEmail
    | BatchType.sms => env.tokensPerSms
    | BatchType.whatsapp => env.tokensPerWhatsapp
  (batchSize : Int) * costPerItem

/-- `validateBatchRequest(emailAddress, batchSize, batchType)`: the
Auth0 lookup is abstracted to its result (`none` when `getUserByEmail`
did not return status 200).  Each failing eligibility condition throws
a distinct message, checked in source order. -/
def validateBatchRequest (userByEmail : Option User) (batchSize : Nat)
    (batchType : BatchType) (env : Env) : Except String Unit :=
  match userByEmail with
  | none => Except.error "Failed to validate batch request: User not found"
  | some u =>
    if u.is_active = false then Except.error "User is not active!"
    else if u.email_verified = false then Except.error "User email not verified!"
    else if u.tokens < calculateBatchCost batchSize batchType env then
      Except.error "User has insufficient tokens!"
    else Except.ok ()

/-! ## `utils/validate.js` — placeholder validation -/

/-- Number of non-overlapping matches of `/\{\}/g` in one paragraph. -/
def countPlaceholdersChars : List Char → Nat
  | '{' :: '}' :: rest => countPlaceholdersChars rest + 1
  | _ :: rest => countPlaceholdersChars rest
  | [] => 0

/-- The `reduce` in `validateMessagePlaceholders`: total `{}` count
over all message paragraphs. -/
def placeholderCountOf (messageParagraphs : List String) : Nat :=
  messageParagraphs.foldl (fun count paragraph => count + countPlaceholdersChars paragraph.data) 0

/-- The thrown message (braces and quotes written as escapes):
`Parameter mismatch detected in row[N]: Found P '{}' placeholders but
Q parameter values!`. -/
def placeholderMismatchMsg (rowNumber placeholderCount parameterCount : Nat) : String :=
  "Parameter mismatch detected in row[" ++ toString rowNumber ++ "]: Found " ++
    toString placeholderCount ++ " \x27\x7b\x7d\x27 placeholders but " ++
    toString parameterCount ++ " parameter values!"

/-- The `forEach` of `validateMessagePlaceholders`, carrying the
running row index; throws at the first mismatching map. -/
def validatePlaceholdersAux (placeholderCount : Nat) :
    Nat → List (List String) → Except String Unit
  | _, [] => Except.ok ()
  | index, parameters :: rest =>
    if placeholderCount ≠ parameters.length then
      Except.error (placeholderMismatchMsg (index + 1) placeholderCount parameters.length)
    else validatePlaceholdersAux placeholderCount (index + 1) rest

/-- `validateMessagePlaceholders(messageParagraphs, parameterMaps)`;
each parameter map is abstracted to its `parameters` array (the only
field the function reads). -/
def validateMessagePlaceholders (messageParagraphs : List String)
    (parameterMaps : List (List String)) : Except String Unit :=
  validatePlaceholdersAux (placeholderCountOf messageParagraphs) 0 parameterMaps

/-! ## `utils/excel.js` — extraction, normalization, deduplication

The spreadsheet is modelled as its `sheet_to_json(sheet, { header: 1 })`
value: a list of rows, each a list of cells, a cell being `none` for an
absent (`undefined`) value. -/

/-- `formatMobileNumbers` on one number: `replace(/\s+/g, "")` then
`replace(/(?!^\+)[^\d]/g, "")` — strip all whitespace, then drop every
non-digit except a `+` left in the first position. -/
def formatKeepLeadPlus (l : List Char) : List Char :=
  match l with
  | [] => []
  | c :: rest =>
    if c = '+' then '+' :: rest.filter Char.isDigit
    else (c :: rest).filter Char.isDigit

/-- `formatMobileNumbers([number])[0]` from `excel.js`. -/
def formatMobileNumber (number : String) : String :=
  String.mk (formatKeepLeadPlus (number.data.filter (fun c => !wsJs c)))

/-- `row[2]` of a sheet row (the recipient-address column of the SMS
and WhatsApp sheets): `undefined` when the row is too short or the
cell is empty. -/
def mobileCell (row : List (Option String)) : Option String :=
  (row.get? 2).bind id

/-- Loop body of the recipient `map` in `extractMobile` /
`extractWhatsapp`: a row with a defined address cell becomes a
recipient record when the formatted number passes `isValidMobile`, is
pushed onto `invalidMobileNumbers` when it is non-blank and fails the
check, and is dropped silently otherwise.  The record keeps the raw
cell (`{ mobile: row, ... }`) and the trailing parameter columns
(`slice(3)` with `undefined` entries filtered out). -/
def mobileRowStep (acc : List MobileRec × List String) (row : List (Option String)) :
    List MobileRec × List String :=
  match mobileCell row with
  | none => acc
  | some s =>
    if isValidMobile (formatMobileNumber s) then
      (acc.1 ++ [⟨s, (row.drop 3).filterMap id⟩], acc.2)
    else if s.trim ≠ "" then (acc.1, acc.2 ++ [s])
    else acc

/-- The recipient `map` of `extractMobile` over `sheetData.slice(1)`:
returns the (not yet deduplicated) recipient records and the invalid
addresses, in row order. -/
def extractMobileRowsModel (sheetData : List (List (Option String))) :
    List MobileRec × List String :=
  (sheetData.drop 1).foldl mobileRowStep ([], [])

/-- Loop body of the dedup `forEach` (`if (!map.has(key)) map.set(key,
item)` with values read back in insertion order). -/
def dedupStepMobile (acc : List MobileRec) (item : MobileRec) : List MobileRec :=
  if acc.any (fun a => a.mobile == item.mobile) then acc else acc ++ [item]

/-- `uniqueMobileParameterMaps` of `extractMobile` / `extractWhatsapp`:
keep the first record per *raw* `mobile` string. -/
def uniqueByMobile (maps : List MobileRec) : List MobileRec :=
  maps.foldl dedupStepMobile []

/-- Loop body of the email dedup `forEach` in `extractEmail`. -/
def dedupStepEmail (acc : List EmailRec) (item : EmailRec) : List EmailRec :=
  if acc.any (fun a => a.email == item.email) then acc else acc ++ [item]

/-- `uniqueEmailParameterMaps` of `extractEmail`: keep the first record
per `email` string. -/
def uniqueByEmail (maps : List EmailRec) : List EmailRec :=
  maps.foldl dedupStepEmail []

/-- `extractMobile`'s recipient output: row extraction followed by
raw-string deduplication. -/
def extractMobileRecipients (sheetData : List (List (Option String))) : List MobileRec :=
  uniqueByMobile (extractMobileRowsModel sheetData).1

/-! ## Dispatch coordinators (`email.js`, `sms.js`, `whatsapp.js`)

The transport (SES / SNS / WhatsApp API) is an oracle
`send : address → Except error messageId` giving the settled outcome of
the per-recipient send promise. -/

/-- `sendBatchEmails` from `email.js`.  The `isDraft` flag only swaps
the `emailAddresses` array used to label success logs; every entry of
`emailParameterMaps` is still sent to its own `email` address.  The
per-recipient `try/catch` surrounds `return sesClient.send(command)`
and so never catches an asynchronous rejection: when any promise
rejects, `Promise.all` rejects, the `.then` that pushes the
per-recipient success logs is skipped, and the single `.catch` pushes
one batch-level log for the first settled rejection (modelled as the
first in list order). -/
def sendBatchEmailsLogs (clientEmail : String) (emailParameterMaps : List EmailRec)
    (isDraft : Bool) (send : String → Except String String) : List String :=
  let emailAddresses : List String :=
    if isDraft then [clientEmail] else emailParameterMaps.map EmailRec.email
  let promises := emailParameterMaps.map (fun m => send m.email)
  match promises.findSome? (fun r => match r with
    | Except.error e => some e
    | Except.ok _ => none) with
  | some e => ["Error sending email: " ++ e]
  | none =>
    promises.mapIdx (fun index r =>
      "Email sent to " ++ ((emailAddresses.get? index).getD "undefined") ++
        ". MessageId: " ++ (r.toOption.getD ""))

/-- `sendBatchSMS` from `sms.js`.  Here the `map` callback is `async`
with the `try/catch` around the `await`, so each rejection is captured
per recipient; failure logs are pushed as tasks settle and success
logs are appended after `Promise.all` resolves (submission order is
used for both; `logSmsEvent` never rejects, it returns an error
response internally, so its failure branch is dead and not modelled). -/
def sendBatchSMSLogs (mobileParameterMaps : List MobileRec)
    (send : String → Except String String) : List String :=
  let failures := mobileParameterMaps.filterMap (fun m =>
    match send m.mobile with
    | Except.error e => some ("Failed to send SMS to " ++ m.mobile ++ ": " ++ e)
    | Except.ok _ => none)
  let successes := mobileParameterMaps.filterMap (fun m =>
    match send m.mobile with
    | Except.ok mid => some ("SMS sent to " ++ m.mobile ++ ". MessageId: " ++ mid)
    | Except.error _ => none)
  failures ++ successes

/-- A WhatsApp template message as built by `processWhatsapp` (the
draft branch sets no parameter list). -/
structure WaMessage where
  phoneNumber : String
  templateName : String
  parameters : Option (List String)
  languageCode : String
deriving DecidableEq, Repr

/-- `sendBatchWhatsappTemplateMessages` from `whatsapp.js`: every
per-recipient task `throw`s on failure, so `Promise.all` rejects with
the first failure and the function rejects (aborting the batch);
otherwise it resolves with the success logs (each task pushes the
success line and the stringified response data). -/
def sendBatchWhatsappResult (messages : List WaMessage)
    (send : String → Except String String) : Except String (List String) :=
  match messages.findSome? (fun m => match send m.phoneNumber with
    | Except.error e =>
      some ("Failed to send WhatsApp message to: " ++ m.phoneNumber ++ ": " ++ e)
    | Except.ok _ => none) with
  | some e => Except.error e
  | none =>
    Except.ok (messages.flatMap (fun m =>
      ["Successfully sent WhatsApp message to: " ++ m.phoneNumber,
       (send m.phoneNumber).toOption.getD ""]))

/-! ## Batch pipelines (`processEmails`, `processSms`, `processWhatsapp`)

Each pipeline's remote collaborators are oracles in a world record.
The observable effects a claim talks about are collected in
`BatchResult`: the structured response (`ResponseHandler` status code
and message), the addresses the transport was invoked for, the list of
ledger deductions written (amounts), and the resulting ledger balance. -/

/-- Extraction output of `extractEmail` consumed by `processEmails`. -/
structure ExtractedEmail where
  clientName : String
  clientEmail : String
  companyName : String
  companyAddress : String
  emailSubject : String
  emailParagraphs : List String
  emailParameterMaps : List EmailRec
  invalidEmailAddresses : List String
deriving Repr

/-- Extraction output of `extractMobile` consumed by `processSms`. -/
structure ExtractedSms where
  clientName : String
  clientEmail : String
  clientMobile : String
  smsBody : String
  mobileParameterMaps : List MobileRec
  invalidMobileNumbers : List String
deriving Repr

/-- Extraction output of `extractWhatsapp` consumed by `processWhatsapp`. -/
structure ExtractedWhatsapp where
  clientName : String
  clientEmail : String
  clientMobile : String
  whatsappAccessToken : String
  whatsappPhoneNumberId : String
  whatsappTemplateName : String
  whatsappParameterMaps : List MobileRec
  invalidMobileNumbers : List String
deriving Repr

/-- Remote collaborators of one batch run: the client's Auth0 record
(shared by `getUserByEmail` and `updateUserTokens`), the channel's
feature flag, the transport oracle, whether the ledger PATCH succeeds,
whether the S3 upload inside `log*ToFile` succeeds, whether
`emailLogFileToClient` succeeds, and (WhatsApp only) whether
`updateUserWhatsAppCredentials` succeeds. -/
structure BatchWorld where
  user : Option User
  env : Env
  sendEnabled : Bool
  send : String → Except String String
  patchOk : Bool
  uploadOk : Bool
  emailLogOk : Bool
  credsOk : Bool

/-- Observable outcome of one `process*` run. -/
structure BatchResult where
  statusCode : Nat
  message : String
  dispatched : List String
  deductions : List Int
  finalTokens : Option Int
  logs : List String
deriving DecidableEq, Repr

/-- Tail of `processEmails` shared by the draft and non-draft branches:
`logEmailToFile` (throws when the S3 upload fails) then
`emailLogFileToClient` (throws when disabled or the SES send fails),
each turned into an error response; otherwise the success response. -/
def finishBatch (w : BatchWorld) (successMessage : String)
    (dispatched : List String) (logs : List String)
    (deductions : List Int) (finalTokens : Option Int) : BatchResult :=
  if w.uploadOk = false then
    ⟨500, "Failed to create log file", dispatched, deductions, finalTokens, logs⟩
  else if w.emailLogOk = false then
    ⟨500, "Failed to email log file to client", dispatched, deductions, finalTokens, logs⟩
  else ⟨200, successMessage, dispatched, deductions, finalTokens, logs⟩

/-- `processEmails(isDraft)` from `email.js`, starting after a
successful `extractEmail` (its output is the `ex` argument).
Order as in source: batch validation (skipped for drafts), feature
flag, `sendBatchEmails` (which dispatches one SES send per entry of
`emailParameterMaps` regardless of `isDraft` and never rejects),
`updateUserTokens(clientEmail, batchCost, "-", true)` for non-drafts,
then the log file and the log email. -/
def processEmailsModel (isDraft : Bool) (ex : ExtractedEmail) (w : BatchWorld) : BatchResult :=
  let t0 := w.user.map User.tokens
  let validation : Except String Unit :=
    if isDraft then Except.ok ()
    else validateBatchRequest w.user ex.emailParameterMaps.length BatchType.email w.env
  match validation with
  | Except.error _ => ⟨500, "Failed to validate batch request", [], [], t0, []⟩
  | Except.ok _ =>
    if w.sendEnabled = false then ⟨500, "Send email disabled", [], [], t0, []⟩
    else
      let dispatched := ex.emailParameterMaps.map EmailRec.email
      let logs := sendBatchEmailsLogs ex.clientEmail ex.emailParameterMaps isDraft w.send
      if isDraft then finishBatch w "Successfully sent email batch!" dispatched logs [] t0
      else
        let batchCost := calculateBatchCost ex.emailParameterMaps.length BatchType.email w.env
        match w.user with
        | none => ⟨500, "Failed to update user tokens", dispatched, [], t0, logs⟩
        | some u =>
          if w.patchOk = false then
            ⟨500, "Failed to update user tokens", dispatched, [], t0, logs⟩
          else
            finishBatch w "Successfully sent email batch!" dispatched logs
              [batchCost] (some (u.tokens - batchCost))

/-- `processSms(isDraft)` from `sms.js`, starting after a successful
`extractMobile`.  Every entry of `mobileParameterMaps` is published to
its own `mobile` number regardless of `isDraft` (the draft flag only
swaps the list used for logging); deduction uses the SMS price. -/
def processSmsModel (isDraft : Bool) (ex : ExtractedSms) (w : BatchWorld) : BatchResult :=
  let t0 := w.user.map User.tokens
  let validation : Except String Unit :=
    if isDraft then Except.ok ()
    else validateBatchRequest w.user ex.mobileParameterMaps.length BatchType.sms w.env
  match validation with
  | Except.error _ => ⟨500, "Failed to validate batch request", [], [], t0, []⟩
  | Except.ok _ =>
    if w.sendEnabled = false then ⟨500, "Send SMS disabled", [], [], t0, []⟩
    else
      let dispatched := ex.mobileParameterMaps.map MobileRec.mobile
      let logs := sendBatchSMSLogs ex.mobileParameterMaps w.send
      if isDraft then finishBatch w "Successfully sent SMS batch!" dispatched logs [] t0
      else
        let batchCost := calculateBatchCost ex.mobileParameterMaps.length BatchType.sms w.env
        match w.user with
        | none => ⟨500, "Failed to update user tokens", dispatched, [], t0, logs⟩
        | some u =>
          if w.patchOk = false then
            ⟨500, "Failed to update user tokens", dispatched, [], t0, logs⟩
          else
            finishBatch w "Successfully sent SMS batch!" dispatched logs
              [batchCost] (some (u.tokens - batchCost))

/-- The `messages` array built by `processWhatsapp`: drafts target only
the client's own mobile (with no parameter list), non-drafts one
message per recipient record. -/
def whatsappMessages (isDraft : Bool) (ex : ExtractedWhatsapp) : List WaMessage :=
  if isDraft then
    [⟨ex.clientMobile, ex.whatsappTemplateName, none, "en_US"⟩]
  else
    ex.whatsappParameterMaps.map (fun m =>
      ⟨m.mobile, ex.whatsappTemplateName, some m.parameters, "en_US"⟩)

/-- `processWhatsapp(isDraft)` from `whatsapp.js`, starting after a
successful `extractWhatsapp`.  Validation uses the `"whatsapp"` batch
type, but the deduction after dispatch calls
`calculateBatchCost(whatsappParameterMaps.length, "email")` — the
email price — exactly as in the source.  A single send failure makes
`sendBatchWhatsappTemplateMessages` reject, aborting the batch (every
send was still initiated).  `updateUserWhatsAppCredentials` runs after
the deduction and before the log file. -/
def processWhatsappModel (isDraft : Bool) (ex : ExtractedWhatsapp) (w : BatchWorld) : BatchResult :=
  let t0 := w.user.map User.tokens
  let validation : Except String Unit :=
    if isDraft then Except.ok ()
    else validateBatchRequest w.user ex.whatsappParameterMaps.length BatchType.whatsapp w.env
  match validation with
  | Except.error _ => ⟨500, "Failed to validate batch request", [], [], t0, []⟩
  | Except.ok _ =>
    let messages := whatsappMessages isDraft ex
    if w.sendEnabled = false then ⟨500, "Send WhatsApp disabled", [], [], t0, []⟩
    else
      let dispatched := messages.map WaMessage.phoneNumber
      match sendBatchWhatsappResult messages w.send with
      | Except.error _ => ⟨500, "Failed to send batch WhatsApp", dispatched, [], t0, []⟩
      | Except.ok logs =>
        let afterTokens : Except Unit (List Int × Option Int) :=
          if isDraft then Except.ok ([], t0)
          else
            let batchCost := calculateBatchCost ex.whatsappParameterMaps.length BatchType.email w.env
            match w.user with
            | none => Except.error ()
            | some u =>
              if w.patchOk = false then Except.error ()
              else Except.ok ([batchCost], some (u.tokens - batchCost))
        match afterTokens with
        | Except.error _ => ⟨500, "Failed to update user tokens", dispatched, [], t0, logs⟩
        | Except.ok (deductions, finalTokens) =>
          if w.credsOk = false then
            ⟨500, "Failed to update user WhatsApp credentials", dispatched, deductions, finalTokens, logs⟩
          else
            finishBatch w "Successfully sent WhatsApp batch!" dispatched logs deductions finalTokens

/-! ## `report.js` — `processMonthlyReports` -/

/-- An Auth0 user row as read by the monthly-report loop. -/
structure ReportUser where
  email : String
  nickname : String
  name : String
  email_verified : Bool
  is_active : Bool
  tokens : Int
deriving DecidableEq, Repr

/-- A structured `ResponseHandler` response (status and message). -/
structure MResp where
  statusCode : Nat
  message : String
deriving DecidableEq, Repr

/-- The three `continue` guards of the loop, as one predicate: a user
is processed unless `email_verified === false`, or
`user_metadata.is_active === false`, or `user_metadata.tokens === 0`. -/
def eligibleUser (u : ReportUser) : Bool :=
  u.email_verified && u.is_active && !(u.tokens == 0)

/-- `processMonthlyReports` from `report.js`, starting after a
successful `getAllUsers` (the user list is the argument).  The whole
per-user `try` block — event retrieval, report building, log file,
`sendMonthlyReportMail` — is abstracted to the oracle `outcome`.  The
loop body `return`s inside both the `try` and the `catch`, so the
first user passing the guards ends the invocation either way; when no
user passes, the loop falls through and the function returns
`undefined` (`none`).  The second component lists the users whose
report pipeline was entered. -/
def processMonthlyReportsModel :
    List ReportUser → (ReportUser → Except String Unit) → Option MResp × List ReportUser
  | [], _ => (none, [])
  | u :: rest, outcome =>
    if u.email_verified = false then processMonthlyReportsModel rest outcome
    else if u.is_active = false then processMonthlyReportsModel rest outcome
    else if u.tokens == 0 then processMonthlyReportsModel rest outcome
    else
      match outcome u with
      | Except.ok _ =>
        (some ⟨200, "Successfully sent monthly report to " ++ u.email⟩, [u])
      | Except.error _ =>
        (some ⟨500, "Failed to send monthly report to " ++ u.email⟩, [u])

/-! ## Spec-side definition for the refinement check on the mobile format -/

/-- The acceptance condition as the specification words it: a leading
`+` followed by 4–17 digits (nothing else).  Compared against the
code's `isValidMobile`. -/
def claimedMobileFormat (s : String) : Bool :=
  match s.data with
  | '+' :: ds => ds.all Char.isDigit && decide (4 ≤ ds.length) && decide (ds.length ≤ 17)
  | _ => false

/-! ## Concrete fixtures used by the evaluation theorems -/

/-- A draft email batch: the sending client is `c@x.com`, the sheet
holds the single recipient `r@x.com`. -/
def exDraftEmail : ExtractedEmail :=
  ⟨"n", "c@x.com", "co", "addr", "subj", ["p"], [⟨"r@x.com", []⟩], []⟩

/-- A draft SMS batch: client mobile `+27999999999`, sheet recipient
`+27111111111`. -/
def exDraftSms : ExtractedSms :=
  ⟨"n", "c@x.com", "+27999999999", "body", [⟨"+27111111111", []⟩], []⟩

/-- A non-draft WhatsApp batch with two recipients. -/
def exWaTwo : ExtractedWhatsapp :=
  ⟨"n", "c@x.com", "+27999999999", "tok", "pid", "tpl",
    [⟨"+27111111111", []⟩, ⟨"+27222222222", []⟩], []⟩

/-- A world where every collaborator succeeds; the account is active,
verified and holds 10 tokens; every channel price is 1 token. -/
def worldAllOk : BatchWorld :=
  ⟨some ⟨true, true, 10⟩, ⟨1, 1, 1⟩, true, fun _ => Except.ok "m", true, true, true, true⟩

/-- As `worldAllOk` but with distinct channel prices: 1 token per
email, 5 per SMS, 2 per WhatsApp message. -/
def worldWaPrices : BatchWorld :=
  ⟨some ⟨true, true, 10⟩, ⟨1, 5, 2⟩, true, fun _ => Except.ok "m", true, true, true, true⟩

/-- A transport oracle that rejects exactly for `b@x.com`. -/
def sendFailsForB : String → Except String String :=
  fun address => if address = "b@x.com" then Except.error "boom" else Except.ok "m1"

/-- A transport oracle that rejects exactly for `+27222222222`. -/
def sendFailsForSecondMobile : String → Except String String :=
  fun address => if address = "+27222222222" then Except.error "boom" else Except.ok "m1"

/-- SMS sheet whose two recipient rows normalize to the same mobile
number but differ as raw strings. -/
def sheetWithNormalizedDuplicate : List (List (Option String)) :=
  [[], [none, none, some "+27 82 111 1111"], [none, none, some "+27821111111"]]

/-- A non-draft SMS batch with three recipients. -/
def exSmsThree : ExtractedSms :=
  ⟨"n", "c@x.com", "+27999999999", "body",
    [⟨"+27111111111", []⟩, ⟨"+27222222222", []⟩, ⟨"+27333333333", []⟩], []⟩

/-- The spec's quota example: balance 5 and an SMS price of 2 tokens
per message (so a batch of 3 requires 6 tokens). -/
def worldPoorSms : BatchWorld :=
  ⟨some ⟨true, true, 5⟩, ⟨1, 2, 1⟩, true, fun _ => Except.ok "m", true, true, true, true⟩

/-- As `worldAllOk` but the S3 upload of the audit log fails. -/
def worldUploadFails : BatchWorld :=
  ⟨some ⟨true, true, 10⟩, ⟨1, 1, 1⟩, true, fun _ => Except.ok "m", true, false, true, true⟩

/-- Two monthly-report users, both passing every eligibility guard. -/
def repUserA : ReportUser := ⟨"a@x.com", "a", "a", true, true, 3⟩

/-- Second eligible monthly-report user. -/
def repUserB : ReportUser := ⟨"b@x.com", "b", "b", true, true, 4⟩

/-- A monthly-report oracle for which every client's report succeeds. -/
def allReportsOk : ReportUser → Except String Unit := fun _ => Except.ok ()

/-! ## Helper definitions used to state the characterization theorems -/

/-- The recipient record a single sheet row contributes (if any):
`some` exactly when the address cell is defined and its normalized
form passes the mobile format check. -/
def validMobileRowEntry (row : List (Option String)) : Option MobileRec :=
  (mobileCell row).bind fun s =>
    if isValidMobile (formatMobileNumber s) then
      some ⟨s, (row.drop 3).filterMap id⟩
    else none

/-- The invalid-address entry a single sheet row contributes (if any):
`some` exactly when the address cell is defined, non-blank, and its
normalized form fails the mobile format check. -/
def invalidMobileRowEntry (row : List (Option String)) : Option String :=
  (mobileCell row).bind fun s =>
    if isValidMobile (formatMobileNumber s) then none
    else if s.trim ≠ "" then some s else none

/-- A message body presented as its decomposition into the segments
between consecutive placeholder occurrences: the segments joined with
one `{}` between each adjacent pair. -/
def joinWithPlaceholders : List String → List Char
  | [] => []
  | [s] => s.data
  | s :: rest => s.data ++ '{' :: '}' :: joinWithPlaceholders rest

/-- The expected substitution result on such a decomposition: the i-th
placeholder occurrence (left to right) becomes the i-th parameter, and
once the parameters run out the remaining occurrences stay as the
literal `{}`. -/
def substProduct : List String → List String → List Char
  | [], _ => []
  | [s], _ => s.data
  | s :: rest, [] => s.data ++ '{' :: '}' :: substProduct rest []
  | s :: rest, p :: ps => s.data ++ p.data ++ substProduct rest ps

end BatchBytes

namespace BatchBytes

/-! ## Claim theorems -/

/-- C1: evaluation at the failing input.  On a draft email batch the
SES destination set is the spreadsheet recipient `r@x.com`, not the
sending client `c@x.com` (and likewise for SMS); the quota half of the
claim does hold (no ledger deduction in draft mode). -/
theorem claim1_draft_sends_to_recipients :
    (processEmailsModel true exDraftEmail worldAllOk).dispatched = ["r@x.com"] ∧
    "c@x.com" ∉ (processEmailsModel true exDraftEmail worldAllOk).dispatched ∧
    (processEmailsModel true exDraftEmail worldAllOk).deductions = [] ∧
    (processSmsModel true exDraftSms worldAllOk).dispatched = ["+27111111111"] ∧
    "+27999999999" ∉ (processSmsModel true exDraftSms worldAllOk).dispatched ∧
    (processSmsModel true exDraftSms worldAllOk).deductions = [] := by
  decide

/-- C2: evaluation at the failing input.  In an email batch of three
recipients where the second send rejects, the returned outcome list
collapses to one batch-level error line — the successes of the first
and third recipients are not reported.  The SMS path, by contrast,
reports the per-recipient failure and both successes. -/
theorem claim2_email_batch_outcomes_lost :
    sendBatchEmailsLogs "c@x.com"
        [⟨"a@x.com", []⟩, ⟨"b@x.com", []⟩, ⟨"d@x.com", []⟩] false sendFailsForB =
      ["Error sending email: boom"] ∧
    sendBatchSMSLogs
        [⟨"+27111111111", []⟩, ⟨"+27222222222", []⟩, ⟨"+27333333333", []⟩]
        sendFailsForSecondMobile =
      ["Failed to send SMS to +27222222222: boom",
       "SMS sent to +27111111111. MessageId: m1",
       "SMS sent to +27333333333. MessageId: m1"] := by
  decide

/-- C3: evaluation at the failing input.  A successful non-draft
WhatsApp batch of 2 recipients under prices (email 1, WhatsApp 2)
deducts 2 tokens — batch size times the *email* price — although the
WhatsApp price of the same batch is 4 tokens. -/
theorem claim3_whatsapp_deducts_email_price :
    (processWhatsappModel false exWaTwo worldWaPrices).statusCode = 200 ∧
    (processWhatsappModel false exWaTwo worldWaPrices).deductions = [2] ∧
    calculateBatchCost exWaTwo.whatsappParameterMaps.length BatchType.whatsapp
      worldWaPrices.env = 4 ∧
    (2 : Int) ≠ 4 := by
  decide

/-- C5 counterexample: the sheet rows `"+27 82 111 1111"` and
`"+27821111111"` normalize to the same mobile number, yet extraction
produces two recipient records — deduplication keys on the raw cell
string, not the normalized address. -/
theorem claim5_counterexample_raw_key_dedup :
    formatMobileNumber "+27 82 111 1111" = formatMobileNumber "+27821111111" ∧
    "+27 82 111 1111" ≠ "+27821111111" ∧
    (extractMobileRecipients sheetWithNormalizedDuplicate).length = 2 := by
  decide

/-- C7 counterexample: with two clients that both satisfy the claim's
eligibility predicate (verified, active, positive balance) and a
report pipeline that succeeds for everyone, the invocation processes
only the first client; the second eligible client is never processed. -/
theorem claim7_counterexample_second_client_skipped :
    eligibleUser repUserB = true ∧ repUserB.email_verified = true ∧
    repUserB.is_active = true ∧ repUserB.tokens > 0 ∧
    (processMonthlyReportsModel [repUserA, repUserB] allReportsOk).2 = [repUserA] ∧
    repUserB ∉ (processMonthlyReportsModel [repUserA, repUserB] allReportsOk).2 := by
  decide

/-- C4: the eligibility check passes exactly when the account exists,
is active, is email-verified, and the balance covers
`batchSize × costPerItem(channel)`; each failing condition throws its
own distinct message, and a failed check means no transport call and
no ledger write on any channel. -/
theorem claim4_eligibility_spec (userByEmail : Option User) (batchSize : Nat)
    (batchType : BatchType) (env : Env) :
    (validateBatchRequest userByEmail batchSize batchType env = Except.ok () ↔
      ∃ u, userByEmail = some u ∧ u.is_active = true ∧ u.email_verified = true ∧
        calculateBatchCost batchSize batchType env ≤ u.tokens) ∧
    (∀ u, userByEmail = some u → u.is_active = false →
      validateBatchRequest userByEmail batchSize batchType env =
        Except.error "User is not active!") ∧
    (∀ u, userByEmail = some u → u.is_active = true → u.email_verified = false →
      validateBatchRequest userByEmail batchSize batchType env =
        Except.error "User email not verified!") ∧
    (∀ u, userByEmail = some u → u.is_active = true → u.email_verified = true →
      u.tokens < calculateBatchCost batchSize batchType env →
      validateBatchRequest userByEmail batchSize batchType env =
        Except.error "User has insufficient tokens!") ∧
    (("User is not active!" : String) ≠ "User email not verified!" ∧
      ("User is not active!" : String) ≠ "User has insufficient tokens!" ∧
      ("User email not verified!" : String) ≠ "User has insufficient tokens!") ∧
    (∀ (ex : ExtractedEmail) (w : BatchWorld),
      validateBatchRequest w.user ex.emailParameterMaps.length BatchType.email w.env ≠
        Except.ok () →
      (processEmailsModel false ex w).dispatched = [] ∧
        (processEmailsModel false ex w).deductions = []) ∧
    (∀ (ex : ExtractedSms) (w : BatchWorld),
      validateBatchRequest w.user ex.mobileParameterMaps.length BatchType.sms w.env ≠
        Except.ok () →
      (processSmsModel false ex w).dispatched = [] ∧
        (processSmsModel false ex w).deductions = []) ∧
    (∀ (ex : ExtractedWhatsapp) (w : BatchWorld),
      validateBatchRequest w.user ex.whatsappParameterMaps.length BatchType.whatsapp w.env ≠
        Except.ok () →
      (processWhatsappModel false ex w).dispatched = [] ∧
        (processWhatsappModel false ex w).deductions = []) := by
  refine ⟨?_, ?_, ?_, ?_, ?_, ?_, ?_, ?_⟩
  · cases userByEmail with
    | none => simp [validateBatchRequest]
    | some u =>
      simp only [validateBatchRequest]
      split_ifs with h1 h2 h3
      · simp only [reduceCtorEq, false_iff]
        rintro ⟨u2, hu2, ha, _, _⟩
        rw [Option.some.injEq] at hu2
        subst hu2
        rw [h1] at ha
        exact Bool.false_ne_true ha
      · simp only [reduceCtorEq, false_iff]
        rintro ⟨u2, hu2, _, hv, _⟩
        rw [Option.some.injEq] at hu2
        subst hu2
        rw [h2] at hv
        exact Bool.false_ne_true hv
      · simp only [reduceCtorEq, false_iff]
        rintro ⟨u2, hu2, _, _, ht⟩
        rw [Option.some.injEq] at hu2
        subst hu2
        exact absurd h3 (not_lt.mpr ht)
      · simp only [true_iff]
        refine ⟨u, rfl, ?_, ?_, not_lt.mp h3⟩
        · cases hb : u.is_active with
          | false => exact absurd hb h1
          | true => rfl
        · cases hb : u.email_verified with
          | false => exact absurd hb h2
          | true => rfl
  · rintro u rfl h1
    simp [validateBatchRequest, h1]
  · rintro u rfl h1 h2
    simp [validateBatchRequest, h1, h2]
  · rintro u rfl h1 h2 h3
    simp [validateBatchRequest, h1, h2, h3]
  · refine ⟨?_, ?_, ?_⟩ <;> decide
  · intro ex w hval
    rcases hv : validateBatchRequest w.user ex.emailParameterMaps.length BatchType.email w.env with e | v
    · simp [processEmailsModel, hv]
    · exact absurd hv hval
  · intro ex w hval
    rcases hv : validateBatchRequest w.user ex.mobileParameterMaps.length BatchType.sms w.env with e | v
    · simp [processSmsModel, hv]
    · exact absurd hv hval
  · intro ex w hval
    rcases hv : validateBatchRequest w.user ex.whatsappParameterMaps.length BatchType.whatsapp w.env with e | v
    · simp [processWhatsappModel, hv]
    · exact absurd hv hval

/-- C4 witness: the spec's own numbers — balance 5, SMS price 2,
batch size 3 — fail the check with the "insufficient" reason and no
SMS is dispatched and no tokens are deducted. -/
theorem claim4_eligibility_spec_witness :
    validateBatchRequest (some ⟨true, true, 5⟩) 3 BatchType.sms ⟨1, 2, 1⟩ =
      Except.error "User has insufficient tokens!" ∧
    (processSmsModel false exSmsThree worldPoorSms).dispatched = [] ∧
    (processSmsModel false exSmsThree worldPoorSms).deductions = [] := by
  have h := claim4_eligibility_spec (some ⟨true, true, 5⟩) 3 BatchType.sms ⟨1, 2, 1⟩
  have h2 := (claim4_eligibility_spec worldPoorSms.user
    exSmsThree.mobileParameterMaps.length BatchType.sms worldPoorSms.env).2.2.2.2.2.2.1
    exSmsThree worldPoorSms (by decide)
  exact ⟨h.2.2.2.1 ⟨true, true, 5⟩ rfl rfl rfl (by decide), h2⟩

/-- C9: once a non-draft email batch has dispatched and the deduction
has been written, a failure of the audit-log upload (or of emailing
the log to the client) yields an error response while the single
deduction of `batchSize × emailPrice` stays in place — no compensating
ledger write, balance remains `tokens − cost`. -/
theorem claim9_persistence_failure_keeps_deduction (ex : ExtractedEmail) (w : BatchWorld)
    (u : User) (hu : w.user = some u)
    (hv : validateBatchRequest w.user ex.emailParameterMaps.length BatchType.email w.env =
      Except.ok ())
    (hs : w.sendEnabled = true) (hp : w.patchOk = true) :
    (w.uploadOk = false →
      (processEmailsModel false ex w).statusCode = 500 ∧
      (processEmailsModel false ex w).message = "Failed to create log file" ∧
      (processEmailsModel false ex w).deductions =
        [calculateBatchCost ex.emailParameterMaps.length BatchType.email w.env] ∧
      (processEmailsModel false ex w).finalTokens =
        some (u.tokens - calculateBatchCost ex.emailParameterMaps.length BatchType.email w.env)) ∧
    (w.uploadOk = true → w.emailLogOk = false →
      (processEmailsModel false ex w).statusCode = 500 ∧
      (processEmailsModel false ex w).message = "Failed to email log file to client" ∧
      (processEmailsModel false ex w).deductions =
        [calculateBatchCost ex.emailParameterMaps.length BatchType.email w.env] ∧
      (processEmailsModel false ex w).finalTokens =
        some (u.tokens - calculateBatchCost ex.emailParameterMaps.length BatchType.email w.env)) := by
  rw [hu] at hv
  constructor
  · intro hup
    simp [processEmailsModel, hv, hs, hu, hp, finishBatch, hup]
  · intro hup hlog
    simp [processEmailsModel, hv, hs, hu, hp, finishBatch, hup, hlog]

/-- C9 witness: a concrete one-recipient batch (balance 10, email
price 1) whose S3 upload fails: error response, deduction `[1]` kept,
balance 9. -/
theorem claim9_persistence_failure_keeps_deduction_witness :
    (processEmailsModel false exDraftEmail worldUploadFails).statusCode = 500 ∧
    (processEmailsModel false exDraftEmail worldUploadFails).message =
      "Failed to create log file" ∧
    (processEmailsModel false exDraftEmail worldUploadFails).deductions = [1] ∧
    (processEmailsModel false exDraftEmail worldUploadFails).finalTokens = some 9 := by
  have h := (claim9_persistence_failure_keeps_deduction exDraftEmail worldUploadFails
    ⟨true, true, 10⟩ rfl (by decide) rfl rfl).1 rfl
  simpa using h

/-- C7 amended: each invocation of the monthly-report loop processes
only the first client passing the three guards (verified, active,
tokens not exactly 0): when no client passes, nothing is processed and
the function returns `undefined`; when one does, exactly that client
is processed and the invocation ends with its success or failure
response — later eligible clients are never reached. -/
theorem claim7_amended_first_eligible_only (users : List ReportUser)
    (outcome : ReportUser → Except String Unit) :
    (users.find? eligibleUser = none →
      processMonthlyReportsModel users outcome = (none, [])) ∧
    (∀ u, users.find? eligibleUser = some u →
      (processMonthlyReportsModel users outcome).2 = [u] ∧
      (outcome u = Except.ok () →
        (processMonthlyReportsModel users outcome).1 =
          some ⟨200, "Successfully sent monthly report to " ++ u.email⟩) ∧
      (∀ e, outcome u = Except.error e →
        (processMonthlyReportsModel users outcome).1 =
          some ⟨500, "Failed to send monthly report to " ++ u.email⟩)) := by
  induction users with
  | nil => simp [processMonthlyReportsModel]
  | cons u rest ih =>
    by_cases h1 : u.email_verified = false
    · have he : eligibleUser u = false := by simp [eligibleUser, h1]
      rw [List.find?_cons_of_neg _ (by simp [he])]
      constructor
      · intro hn
        simpa [processMonthlyReportsModel, h1] using ih.1 hn
      · intro v hv
        simpa [processMonthlyReportsModel, h1] using ih.2 v hv
    · by_cases h2 : u.is_active = false
      · have he : eligibleUser u = false := by simp [eligibleUser, h2]
        rw [List.find?_cons_of_neg _ (by simp [he])]
        constructor
        · intro hn
          simpa [processMonthlyReportsModel, h1, h2] using ih.1 hn
        · intro v hv
          simpa [processMonthlyReportsModel, h1, h2] using ih.2 v hv
      · by_cases h3 : u.tokens = 0
        · have he : eligibleUser u = false := by
            simp [eligibleUser, h3]
          rw [List.find?_cons_of_neg _ (by simp [he])]
          constructor
          · intro hn
            simpa [processMonthlyReportsModel, h1, h2, h3] using ih.1 hn
          · intro v hv
            simpa [processMonthlyReportsModel, h1, h2, h3] using ih.2 v hv
        · have he : eligibleUser u = true := by
            simp only [eligibleUser, Bool.and_eq_true, Bool.not_eq_true', beq_eq_false_iff_ne]
            refine ⟨⟨?_, ?_⟩, h3⟩
            · cases hb : u.email_verified with
              | false => exact absurd hb h1
              | true => rfl
            · cases hb : u.is_active with
              | false => exact absurd hb h2
              | true => rfl
          rw [List.find?_cons_of_pos _ he]
          refine ⟨by simp, ?_⟩
          rintro v hv
          rw [Option.some.injEq] at hv
          subst hv
          rcases ho : outcome u with e | o
          · exact ⟨by simp [processMonthlyReportsModel, h1, h2, h3, ho], by simp [ho],
              fun e2 _ => by simp [processMonthlyReportsModel, h1, h2, h3, ho]⟩
          · exact ⟨by simp [processMonthlyReportsModel, h1, h2, h3, ho],
              fun _ => by simp [processMonthlyReportsModel, h1, h2, h3, ho],
              fun e2 he2 => absurd he2 (by simp)⟩

/-- C7 amended witness: on the two all-eligible users with an
everywhere-successful report pipeline, the invocation reports success
for the first user and the processed list is exactly that user. -/
theorem claim7_amended_first_eligible_only_witness :
    (processMonthlyReportsModel [repUserA, repUserB] allReportsOk).2 = [repUserA] ∧
    (processMonthlyReportsModel [repUserA, repUserB] allReportsOk).1 =
      some ⟨200, "Successfully sent monthly report to a@x.com"⟩ := by
  have h := (claim7_amended_first_eligible_only [repUserA, repUserB] allReportsOk).2
    repUserA (by decide)
  exact ⟨h.1, by simpa using h.2.1 rfl⟩

/-- C8 counterexample: `"+1234"` has a leading `+` followed by 4
digits — inside the claimed 4–17 range — but the code's mobile format
check rejects it (the regex requires at least 5 digits: 1–3 for the
country code plus at least 4 more). -/
theorem claim8_counterexample_four_digits_rejected :
    claimedMobileFormat "+1234" = true ∧ isValidMobile "+1234" = false := by
  decide

/-! ### Deduplication lemmas (for C5) -/

lemma find?_insert_fold {α : Type} (key : α → String) (k : String) :
    ∀ (l acc : List α),
      List.find? (fun r => key r == k)
        (List.foldl (fun acc2 item =>
          if acc2.any (fun a => key a == key item) then acc2 else acc2 ++ [item]) acc l) =
      Option.or (List.find? (fun r => key r == k) acc) (List.find? (fun r => key r == k) l) := by
  intro l
  induction l with
  | nil => intro acc; simp
  | cons m rest ih =>
    intro acc
    simp only [List.foldl_cons]
    by_cases hm : acc.any (fun a => key a == key m) = true
    · rw [if_pos hm, ih acc]
      by_cases hpm : (key m == k) = true
      · have hk : key m = k := by simpa using hpm
        obtain ⟨a, ha, hpa⟩ := List.any_eq_true.mp hm
        have hsome : (List.find? (fun r => key r == k) acc).isSome := by
          refine List.find?_isSome.mpr ⟨a, ha, ?_⟩
          have : key a = key m := by simpa using hpa
          simp [this, hk]
        obtain ⟨r, hr⟩ := Option.isSome_iff_exists.mp hsome
        rw [hr]
        simp [Option.or]
      · have hf : (key m == k) = false := by
          simpa using hpm
        rw [List.find?_cons]
        simp [hf]
    · rw [if_neg hm, ih (acc ++ [m]), List.find?_append, Option.or_assoc]
      congr 1
      rw [List.find?_cons]
      by_cases hpm : (key m == k) = true
      · simp [List.find?, hpm, Option.or]
      · simp only [Bool.not_eq_true] at hpm
        simp [List.find?, hpm, Option.or]

lemma pairwise_insert_fold {α : Type} (key : α → String) :
    ∀ (l acc : List α),
      acc.Pairwise (fun a b => key a ≠ key b) →
      (List.foldl (fun acc2 item =>
        if acc2.any (fun a => key a == key item) then acc2 else acc2 ++ [item]) acc l).Pairwise
        (fun a b => key a ≠ key b) := by
  intro l
  induction l with
  | nil => intro acc h; simpa using h
  | cons m rest ih =>
    intro acc h
    simp only [List.foldl_cons]
    by_cases hm : acc.any (fun a => key a == key m) = true
    · rw [if_pos hm]
      exact ih acc h
    · rw [if_neg hm]
      refine ih (acc ++ [m]) ?_
      rw [List.pairwise_append]
      refine ⟨h, by simp, ?_⟩
      intro a ha b hb
      have hb2 : b = m := by simpa using hb
      subst hb2
      intro hkey
      exact hm (List.any_eq_true.mpr ⟨a, ha, by simp [hkey]⟩)

/-- C5 amended: deduplication keys on the *raw* address string exactly
as it appears in the sheet (not on the normalized mobile form): the
deduplicated recipient set has pairwise-distinct raw keys, and for
every key the surviving record is precisely the first extracted record
carrying that raw key (so its parameters are the first occurrence's);
this holds for the mobile channels and for email alike. -/
theorem claim5_amended_dedup_keys_raw_address (maps : List MobileRec)
    (emaps : List EmailRec) (k : String) :
    (uniqueByMobile maps).Pairwise (fun a b => a.mobile ≠ b.mobile) ∧
    (uniqueByMobile maps).find? (fun r => r.mobile == k) =
      maps.find? (fun r => r.mobile == k) ∧
    (uniqueByEmail emaps).Pairwise (fun a b => a.email ≠ b.email) ∧
    (uniqueByEmail emaps).find? (fun r => r.email == k) =
      emaps.find? (fun r => r.email == k) := by
  refine ⟨?_, ?_, ?_, ?_⟩
  · exact pairwise_insert_fold MobileRec.mobile maps [] (by simp)
  · have h := find?_insert_fold MobileRec.mobile k maps []
    rw [List.find?_nil, Option.none_or] at h
    exact h
  · exact pairwise_insert_fold EmailRec.email emaps [] (by simp)
  · have h := find?_insert_fold EmailRec.email k emaps []
    rw [List.find?_nil, Option.none_or] at h
    exact h

/-! ### Placeholder-validation lemmas (for C6) -/

lemma validatePlaceholdersAux_ok_iff (c : Nat) :
    ∀ (maps : List (List String)) (i : Nat),
      validatePlaceholdersAux c i maps = Except.ok () ↔ ∀ ps ∈ maps, ps.length = c := by
  intro maps
  induction maps with
  | nil => intro i; simp [validatePlaceholdersAux]
  | cons ps rest ih =>
    intro i
    simp only [validatePlaceholdersAux]
    by_cases h : c = ps.length
    · rw [if_neg (by simp [h])]
      rw [ih (i + 1)]
      constructor
      · rintro hall q hq
        rcases List.mem_cons.mp hq with hq1 | hq1
        · rw [hq1, h]
        · exact hall q hq1
      · intro hall q hq
        exact hall q (List.mem_cons_of_mem _ hq)
    · rw [if_pos h]
      simp only [reduceCtorEq, false_iff]
      intro hall
      exact h (hall ps (List.mem_cons_self _ _)).symm

lemma validatePlaceholdersAux_first_mismatch (c : Nat) :
    ∀ (pre : List (List String)) (i : Nat) (m : List String) (post : List (List String)),
      (∀ p ∈ pre, p.length = c) → m.length ≠ c →
      validatePlaceholdersAux c i (pre ++ m :: post) =
        Except.error (placeholderMismatchMsg (i + pre.length + 1) c m.length) := by
  intro pre
  induction pre with
  | nil =>
    intro i m post _ hm
    simp only [List.nil_append, validatePlaceholdersAux]
    rw [if_pos (fun hc => hm hc.symm)]
    simp
  | cons q pre2 ih =>
    intro i m post hpre hm
    simp only [List.cons_append, validatePlaceholdersAux]
    rw [if_neg (fun hne => hne (hpre q (List.mem_cons_self _ _)).symm)]
    simp only [List.append_eq]
    rw [ih (i + 1) m post (fun p hp => hpre p (List.mem_cons_of_mem _ hp)) hm]
    have harg : i + 1 + pre2.length + 1 = i + (q :: pre2).length + 1 := by
      simp only [List.length_cons]
      omega
    rw [harg]

/-- C6: the placeholder total is the number of `{}` tokens summed over
the whole message body (every paragraph for email, the single body for
SMS); validation succeeds iff every recipient's parameter count equals
this total, and with the first mismatching recipient at (0-based)
position `pre.length` it fails with the message naming that
recipient's 1-based row index. -/
theorem claim6_placeholder_validation (messageParagraphs : List String)
    (parameterMaps : List (List String)) :
    (validateMessagePlaceholders messageParagraphs parameterMaps = Except.ok () ↔
      ∀ ps ∈ parameterMaps, ps.length = placeholderCountOf messageParagraphs) ∧
    (∀ pre m post, parameterMaps = pre ++ m :: post →
      (∀ p ∈ pre, p.length = placeholderCountOf messageParagraphs) →
      m.length ≠ placeholderCountOf messageParagraphs →
      validateMessagePlaceholders messageParagraphs parameterMaps =
        Except.error (placeholderMismatchMsg (pre.length + 1)
          (placeholderCountOf messageParagraphs) m.length)) := by
  constructor
  · exact validatePlaceholdersAux_ok_iff (placeholderCountOf messageParagraphs) parameterMaps 0
  · rintro pre m post rfl hpre hm
    have h := validatePlaceholdersAux_first_mismatch (placeholderCountOf messageParagraphs)
      pre 0 m post hpre hm
    simpa using h

/-- C6 witness: the spec's example — a body with two `{}` tokens and a
recipient with one parameter — fails naming row 1, the counts 2 and 1. -/
theorem claim6_placeholder_validation_witness :
    validateMessagePlaceholders ["x \x7b\x7d \x7b\x7d"] [["a"]] =
      Except.error (placeholderMismatchMsg 1 2 1) := by
  have h := (claim6_placeholder_validation ["x \x7b\x7d \x7b\x7d"] [["a"]]).2
    [] ["a"] [] rfl (by simp) (by decide)
  simpa using h

/-! ### Mobile-format and extraction lemmas (for C8) -/

lemma wsJs_eq_false_of_isDigit (c : Char) (h : c.isDigit = true) : wsJs c = false := by
  cases hw : wsJs c with
  | false => rfl
  | true =>
    have hcases := hw
    simp only [wsJs, Char.isWhitespace, Bool.or_eq_true, decide_eq_true_eq] at hcases
    rcases hcases with ((h1 | h1) | h1) | h1 <;> rw [h1] at h <;> exact absurd h (by decide)

lemma dropWhileWs_eq_self :
    ∀ (l : List Char), (∀ c ∈ l, wsJs c = false) → l.dropWhile wsJs = l
  | [], _ => rfl
  | c :: rest, h => by
    have hc := h c (List.mem_cons_self _ _)
    simp [List.dropWhile_cons, hc]

lemma jsTrim_plus_digits (ds : List Char) (h : ∀ c ∈ ds, c.isDigit = true) :
    jsTrim ('+' :: ds) = '+' :: ds := by
  have hall : ∀ c ∈ '+' :: ds, wsJs c = false := by
    intro c hc
    rcases List.mem_cons.mp hc with h1 | h1
    · rw [h1]
      decide
    · exact wsJs_eq_false_of_isDigit c (h c h1)
  have hrev : ∀ c ∈ ('+' :: ds).reverse, wsJs c = false := by
    intro c hc2
    exact hall c (List.mem_reverse.mp hc2)
  unfold jsTrim
  rw [dropWhileWs_eq_self _ hall]
  rw [dropWhileWs_eq_self _ hrev]
  exact List.reverse_reverse _

lemma tailGroups_all_digits :
    ∀ (l : List Char), (∀ c ∈ l, c.isDigit = true) → tailGroups l = some l.length
  | [], _ => rfl
  | c :: rest, h => by
    have hc : c.isDigit = true := h c (List.mem_cons_self _ _)
    have ih := tailGroups_all_digits rest (fun d hd => h d (List.mem_cons_of_mem _ hd))
    unfold tailGroups
    rw [if_pos hc, ih]
    simp

lemma tryCountryCode_digits_iff (ds : List Char) (h : ∀ c ∈ ds, c.isDigit = true) (k : Nat) :
    tryCountryCode ds k = true ↔
      k ≤ ds.length ∧ 4 ≤ ds.length - k ∧ ds.length - k ≤ 14 := by
  have htake : (ds.take k).all Char.isDigit = true := by
    rw [List.all_eq_true]
    intro c hc
    exact h c (List.take_subset k ds hc)
  have hdrop := tailGroups_all_digits (ds.drop k) (fun d hd => h d (List.drop_subset k ds hd))
  rw [List.length_drop] at hdrop
  simp only [tryCountryCode, htake, hdrop, Bool.and_eq_true, decide_eq_true_eq,
    List.length_take, Bool.and_true, Bool.true_and]
  omega

lemma isValidMobile_plus_digits (ds : List Char) (h : ∀ c ∈ ds, c.isDigit = true) :
    isValidMobile (String.mk ('+' :: ds)) = true ↔ 5 ≤ ds.length ∧ ds.length ≤ 17 := by
  have ht : jsTrim (String.mk ('+' :: ds)).data = '+' :: ds := jsTrim_plus_digits ds h
  have hunf : isValidMobile (String.mk ('+' :: ds)) =
      (tryCountryCode ds 1 || tryCountryCode ds 2 || tryCountryCode ds 3) := by
    unfold isValidMobile
    rw [ht]
    simp
  rw [hunf, Bool.or_eq_true, Bool.or_eq_true, tryCountryCode_digits_iff ds h 1,
    tryCountryCode_digits_iff ds h 2, tryCountryCode_digits_iff ds h 3]
  omega

lemma extractMobileRows_fold :
    ∀ (rows : List (List (Option String))) (acc : List MobileRec × List String),
      rows.foldl mobileRowStep acc =
        (acc.1 ++ rows.filterMap validMobileRowEntry,
         acc.2 ++ rows.filterMap invalidMobileRowEntry) := by
  intro rows
  induction rows with
  | nil => intro acc; simp
  | cons row rest ih =>
    intro acc
    simp only [List.foldl_cons, List.filterMap_cons]
    rcases hc : mobileCell row with _ | s
    · have hstep : mobileRowStep acc row = acc := by
        simp [mobileRowStep, hc]
      rw [hstep, ih acc]
      simp [validMobileRowEntry, invalidMobileRowEntry, hc]
    · by_cases hv : isValidMobile (formatMobileNumber s) = true
      · have hstep : mobileRowStep acc row =
            (acc.1 ++ [⟨s, (row.drop 3).filterMap id⟩], acc.2) := by
          simp [mobileRowStep, hc, hv]
        rw [hstep, ih]
        simp [validMobileRowEntry, invalidMobileRowEntry, hc, hv]
      · by_cases htr : s.trim = ""
        · have hstep : mobileRowStep acc row = acc := by
            simp [mobileRowStep, hc, hv, htr]
          rw [hstep, ih acc]
          simp [validMobileRowEntry, invalidMobileRowEntry, hc, hv, htr]
        · have hstep : mobileRowStep acc row = (acc.1, acc.2 ++ [s]) := by
            simp [mobileRowStep, hc, hv, htr]
          rw [hstep, ih]
          simp [validMobileRowEntry, invalidMobileRowEntry, hc, hv, htr]

/-- C8 amended: after normalization the mobile format check accepts a
`+`-prefixed digit string exactly when it has 5–17 digits (1–3 for the
country code and 4–14 more), not 4–17; and row extraction is the
row-wise filter it claims to be — every recipient record carries an
address whose normalized form passes the check, and every defined,
non-blank cell whose normalized form fails the check is appended to
`invalidMobileNumbers` without aborting the extraction of the
remaining rows. -/
theorem claim8_amended_mobile_format (ds : List Char) (h : ∀ c ∈ ds, c.isDigit = true)
    (sheetData : List (List (Option String))) :
    (isValidMobile (String.mk ('+' :: ds)) = true ↔ 5 ≤ ds.length ∧ ds.length ≤ 17) ∧
    (extractMobileRowsModel sheetData).1 = (sheetData.drop 1).filterMap validMobileRowEntry ∧
    (extractMobileRowsModel sheetData).2 =
      (sheetData.drop 1).filterMap invalidMobileRowEntry ∧
    (∀ rec ∈ (extractMobileRowsModel sheetData).1,
      isValidMobile (formatMobileNumber rec.mobile) = true) ∧
    (∀ row ∈ sheetData.drop 1, ∀ s, mobileCell row = some s →
      isValidMobile (formatMobileNumber s) = false → ¬s.trim = "" →
      s ∈ (extractMobileRowsModel sheetData).2) := by
  have hchar := extractMobileRows_fold (sheetData.drop 1) ([], [])
  have hfst : (extractMobileRowsModel sheetData).1 =
      (sheetData.drop 1).filterMap validMobileRowEntry := by
    rw [show extractMobileRowsModel sheetData =
      (sheetData.drop 1).foldl mobileRowStep ([], []) from rfl, hchar]
    simp
  have hsnd : (extractMobileRowsModel sheetData).2 =
      (sheetData.drop 1).filterMap invalidMobileRowEntry := by
    rw [show extractMobileRowsModel sheetData =
      (sheetData.drop 1).foldl mobileRowStep ([], []) from rfl, hchar]
    simp
  refine ⟨isValidMobile_plus_digits ds h, hfst, hsnd, ?_, ?_⟩
  · intro rec hrec
    rw [hfst] at hrec
    obtain ⟨row, _, hentry⟩ := List.mem_filterMap.mp hrec
    unfold validMobileRowEntry at hentry
    rcases hc : mobileCell row with _ | s
    · rw [hc] at hentry
      exact absurd hentry (by simp)
    · rw [hc] at hentry
      simp only [Option.some_bind] at hentry
      by_cases hv : isValidMobile (formatMobileNumber s) = true
      · rw [if_pos hv] at hentry
        have hrec2 := Option.some.inj hentry
        rw [← hrec2]
        exact hv
      · rw [if_neg hv] at hentry
        exact absurd hentry (by simp)
  · intro row hrow s hc hv htr
    rw [hsnd]
    refine List.mem_filterMap.mpr ⟨row, hrow, ?_⟩
    simp [invalidMobileRowEntry, hc, hv, htr]

/-- C8 amended witness: `"+2712345"` — a `+` and 7 digits — passes the
mobile format check. -/
theorem claim8_amended_mobile_format_witness :
    isValidMobile (String.mk ('+' :: "2712345".data)) = true ∧
    String.mk ('+' :: "2712345".data) = "+2712345" := by
  constructor
  · exact (claim8_amended_mobile_format "2712345".data (by decide) []).1.mpr (by decide)
  · decide

/-! ### Substitution lemmas (for C10) -/

lemma replaceAux_cons_ne (c : Char) (hc : c ≠ '{') :
    ∀ (l : List Char) (ps : List String), replaceAux (c :: l) ps = c :: replaceAux l ps := by
  intro l ps
  cases l with
  | nil => simp [replaceAux]
  | cons d rest => simp [replaceAux, hc]

lemma replaceAux_braceFree_append :
    ∀ (seg : List Char), (∀ c ∈ seg, c ≠ '{') →
      ∀ (rest : List Char) (ps : List String),
        replaceAux (seg ++ rest) ps = seg ++ replaceAux rest ps
  | [], _, rest, ps => by simp
  | c :: cs, h, rest, ps => by
    have hc : c ≠ '{' := h c (List.mem_cons_self _ _)
    have ih := replaceAux_braceFree_append cs (fun x hx => h x (List.mem_cons_of_mem _ hx)) rest ps
    rw [List.cons_append, replaceAux_cons_ne c hc, ih, List.cons_append]

lemma replaceAux_placeholder_cons (l : List Char) (p : String) (ps : List String) :
    replaceAux ('{' :: '}' :: l) (p :: ps) = p.data ++ replaceAux l ps := by
  simp [replaceAux]

lemma replaceAux_placeholder_nil (l : List Char) :
    replaceAux ('{' :: '}' :: l) [] = '{' :: '}' :: replaceAux l [] := by
  simp [replaceAux]

lemma replaceAux_join_substProduct :
    ∀ (segs : List String), (∀ seg ∈ segs, ∀ c ∈ seg.data, c ≠ '{') →
      ∀ (params : List String),
        replaceAux (joinWithPlaceholders segs) params = substProduct segs params
  | [], _, params => rfl
  | [s], h, params => by
    have hs := h s (List.mem_cons_self _ _)
    have h2 := replaceAux_braceFree_append s.data hs [] params
    have h0 : replaceAux [] params = [] := rfl
    rw [h0] at h2
    rw [List.append_nil] at h2
    have hj : joinWithPlaceholders [s] = s.data := rfl
    have hsub : substProduct [s] params = s.data := by cases params <;> rfl
    rw [hj, hsub]
    exact h2
  | s :: s2 :: rest, h, params => by
    have hs := h s (List.mem_cons_self _ _)
    have htail : ∀ seg ∈ s2 :: rest, ∀ c ∈ seg.data, c ≠ '{' :=
      fun seg hseg => h seg (List.mem_cons_of_mem _ hseg)
    have ihcall := replaceAux_join_substProduct (s2 :: rest) htail
    cases params with
    | nil =>
      rw [show joinWithPlaceholders (s :: s2 :: rest) =
        s.data ++ '{' :: '}' :: joinWithPlaceholders (s2 :: rest) from rfl]
      rw [replaceAux_braceFree_append s.data hs, replaceAux_placeholder_nil, ihcall []]
      rfl
    | cons p ps =>
      rw [show joinWithPlaceholders (s :: s2 :: rest) =
        s.data ++ '{' :: '}' :: joinWithPlaceholders (s2 :: rest) from rfl]
      rw [replaceAux_braceFree_append s.data hs, replaceAux_placeholder_cons, ihcall ps]
      rw [show substProduct (s :: s2 :: rest) (p :: ps) =
        s.data ++ p.data ++ substProduct (s2 :: rest) ps from rfl]
      rw [List.append_assoc]

/-- C10: on a body decomposed into brace-free segments joined by `{}`
markers, `replacePlaceholders` replaces the i-th occurrence (left to
right) by the i-th parameter and leaves every occurrence beyond the
parameter count as the literal `{}`, returning normally — exactly the
`substProduct` shape. -/
theorem claim10_positional_substitution (segs : List String) (params : List String)
    (h : ∀ seg ∈ segs, ∀ c ∈ seg.data, c ≠ '{') :
    replaceAux (joinWithPlaceholders segs) params = substProduct segs params ∧
    replacePlaceholders (String.mk (joinWithPlaceholders segs)) params =
      String.mk (substProduct segs params) := by
  have h1 := replaceAux_join_substProduct segs h params
  exact ⟨h1, congrArg String.mk h1⟩

/-- C10 witness: `"a{}b{}c"` with the single parameter `"X"` becomes
`"aXb{}c"` — the first occurrence is substituted, the surplus second
occurrence survives literally. -/
theorem claim10_positional_substitution_witness :
    replacePlaceholders (String.mk (joinWithPlaceholders ["a", "b", "c"])) ["X"] =
      String.mk (substProduct ["a", "b", "c"] ["X"]) ∧
    String.mk (joinWithPlaceholders ["a", "b", "c"]) = "a\x7b\x7db\x7b\x7dc" ∧
    String.mk (substProduct ["a", "b", "c"] ["X"]) = "aXb\x7b\x7dc" := by
  refine ⟨(claim10_positional_substitution ["a", "b", "c"] ["X"] (by decide)).2, ?_, ?_⟩
  · decide
  · decide

end BatchBytes
